import Mathlib

/-!
Verification of the two MetaGPT provider adapters in this repository fragment:
`metagpt/provider/github_copilot_api.py` (class `GitHubCopilotLLM`) and
`metagpt/provider/github_api.py` (class `GitHubLLM`).

The Python code is shallowly embedded: methods become pure Lean functions, the
mutation of `self.config` performed by `_init_client` becomes explicit
state-passing (the function returns the updated configuration), Python
exceptions become `Except PyErr`, Python `dict` payloads become association
lists with insertion-order semantics, and the external collaborators that are
not part of this fragment (the `TOKEN_MAX` table, the token counters, the cost
manager, the Sydney client) become parameters.
-/

namespace MetaGPTProv

/-- A chat message: a role (system/user/assistant) and a text content field. -/
structure Message where
  role : String
  content : String
deriving DecidableEq, Repr

/-- Modelled from the spec: the Configuration record (`LLMConfig` from
`metagpt.configs.llm_config`, which is not part of this source fragment).
Per spec §3/§6 it carries the model identifier, sampling parameters
(temperature, top-p, frequency/presence penalties, stop sequences — with
neutral defaults 1.0, 0.0, 0.0 and absent respectively), a token limit,
proxy address, a usage-calculation flag, a timeout and a pricing-plan
override.  Temperature-like knobs are rationals: the Python code only ever
compares them for equality, never does float arithmetic on them. -/
structure LLMConfig where
  model : String := ""
  temperature : Rat := 0
  top_p : Rat := 1
  frequency_penalty : Rat := 0
  presence_penalty : Rat := 0
  stop : Option String := none
  max_token : Nat := 4096
  timeout : Nat := 600
  calc_usage : Bool := true
  pricing_plan : Option String := none
  proxy : Option String := none
deriving DecidableEq, Repr

/-- The Python exceptions that the embedded code can raise. -/
inductive PyErr where
  | valueError
  | attributeError
  | nameError
  | keyError
  | indexError
  | runtimeError
deriving DecidableEq, Repr

/-- `supported_models` from `GitHubCopilotLLM._init_client`. -/
def supported_models : List String := ["gpt-4o", "gpt-4.1", "gpt-5-mini", "gpt-5"]

/-- Python `a or b` for an optional string `a`: `a` when truthy (present and
non-empty), else `b`.  Used for `self.config.pricing_plan or self.model`. -/
def pricingPlanOr (pp : Option String) (model : String) : String :=
  match pp with
  | some s => if s != "" then s else model
  | none => model

/-- Python `s.startswith(pat)`: `pat` is a prefix of `s`. -/
def pyStartsWith (s pat : String) : Bool :=
  pat.data.isPrefixOf s.data

/-- Fuel-based core of Python `str.replace`: scan left to right, and at each
position either consume a (non-overlapping) occurrence of `pat` and emit
`rep`, or keep the current character.  The fuel is the length of the string,
which suffices because a non-empty `pat` consumes at least one character. -/
def replaceFuel (pat rep : List Char) : Nat → List Char → List Char
  | _, [] => []
  | 0, s => s
  | fuel + 1, c :: rest =>
    if pat.isPrefixOf (c :: rest) then
      rep ++ replaceFuel pat rep fuel ((c :: rest).drop pat.length)
    else
      c :: replaceFuel pat rep fuel rest

/-- Python `s.replace(pat, rep)` for a non-empty `pat`: every non-overlapping
occurrence of `pat` in `s`, scanned left to right, is replaced by `rep`.
(The only call site in this fragment uses the non-empty pattern
`"github_copilot/"`; Python's special behavior for an empty pattern is not
needed.) -/
def pyReplace (s pat rep : String) : String :=
  ⟨replaceFuel pat.data rep.data s.data.length s.data⟩

/-- The state `_init_client` leaves on the adapter: the (possibly updated)
configuration plus the `self.model` and `self.pricing_plan` attributes. -/
structure InitResult where
  config : LLMConfig
  model : String
  pricing_plan : String
deriving DecidableEq, Repr

/-- Embeds `GitHubCopilotLLM._init_client` (github_copilot_api.py lines 49-83).
Mutation of `self.config.model` is made explicit in the returned
configuration.  `if not self.config.model` is Python truthiness of a string
(empty means falsy); `self.config.model.replace("github_copilot/", "")`
removes every occurrence, embedded by `pyReplace`.  The
`litellm.set_verbose` / `litellm.proxy` assignments touch only the external
library and are not part of the adapter state. -/
def init_client (config : LLMConfig) : Except PyErr InitResult :=
  if config.model = "" then
    let config2 := { config with model := "github_copilot/gpt-4o" }
    .ok ⟨config2, config2.model, pricingPlanOr config2.pricing_plan config2.model⟩
  else if ¬ pyStartsWith config.model "github_copilot/" then
    if config.model ∈ supported_models then
      let config2 := { config with model := "github_copilot/" ++ config.model }
      .ok ⟨config2, config2.model, pricingPlanOr config2.pricing_plan config2.model⟩
    else
      .error .valueError
  else
    if pyReplace config.model "github_copilot/" "" ∈ supported_models then
      .ok ⟨config, config.model, pricingPlanOr config.pricing_plan config.model⟩
    else
      .error .valueError

/-- Python truthiness of an optional string: truthy iff present and non-empty
(`None` and `""` are falsy). -/
def strTruthy : Option String → Bool
  | none => false
  | some s => s != ""

/-- Embeds `GitHubCopilotLLM._normalize_model_name` (lines 188-192): strip the
leading provider prefix when present (`model_name[len("github_copilot/"):]`). -/
def normalize_model_name (model_name : String) : String :=
  if pyStartsWith model_name "github_copilot/" then
    model_name.drop "github_copilot/".length
  else
    model_name

/-- A usage record: prompt, completion and total token counts.  The token
counts the Python code handles are non-negative integers. -/
structure Usage where
  prompt_tokens : Nat
  completion_tokens : Nat
  total_tokens : Nat
deriving DecidableEq, Repr

/-- `choice.delta` of a streamed chunk: an optional incremental content
fragment. -/
structure Delta where
  content : Option String
deriving DecidableEq, Repr

/-- One element of a streamed chunk's `choices` list. -/
structure ChunkChoice where
  delta : Delta
deriving DecidableEq, Repr

/-- A streamed response chunk, per the external completion client's shape:
a `choices` list and an optional `usage` record. -/
structure Chunk where
  choices : List ChunkChoice
  usage : Option Usage
deriving DecidableEq, Repr

/-- Embeds `GitHubCopilotLLM._calc_usage` (lines 194-210).  The token
counters (`count_message_tokens`, `count_output_tokens` from
`metagpt.utils.token_counter`, outside this fragment) are parameters; they
return non-negative integer counts and may raise, which `Except` captures.
A raise from either counter is caught and the all-zero record returned;
Python evaluates `count_message_tokens` first, so its exception preempts the
second counter, which the nested match mirrors. -/
def calc_usage (config : LLMConfig) (pricing_plan : String)
    (count_message_tokens : List Message → String → Except String Nat)
    (count_output_tokens : String → String → Except String Nat)
    (messages : List Message) (response : String) : Usage :=
  if ¬ config.calc_usage then
    ⟨0, 0, 0⟩
  else
    let normalized_model := normalize_model_name pricing_plan
    match count_message_tokens messages normalized_model with
    | .error _ => ⟨0, 0, 0⟩
    | .ok prompt_tokens =>
      match count_output_tokens response normalized_model with
      | .error _ => ⟨0, 0, 0⟩
      | .ok completion_tokens =>
        ⟨prompt_tokens, completion_tokens, prompt_tokens + completion_tokens⟩

/-- Embeds one iteration of the chunk loop in
`GitHubCopilotLLM._achat_completion_stream` (lines 110-120).  The
accumulator holds the `collected_messages` list and the `usage` variable.
Both the truthy-content append and the truthy-usage assignment sit inside
the `if chunk.choices:` guard, exactly as in the source (the usage check is
nested under the non-empty-choices branch). -/
def process_chunk (acc : List String × Option Usage) (chunk : Chunk) :
    List String × Option Usage :=
  match chunk.choices with
  | [] => acc
  | choice :: _ =>
    let acc2 :=
      match choice.delta.content with
      | some c => if c != "" then (acc.1 ++ [c], acc.2) else acc
      | none => acc
    match chunk.usage with
    | some u => (acc2.1, some u)
    | none => acc2

/-- Embeds `GitHubCopilotLLM._achat_completion_stream` (lines 101-134) after
the external call has produced the chunk sequence: folds the chunk loop,
joins the collected fragments, computes the local usage when the loop left
`usage` unset (`if not usage:`), and returns the pair of the text result and
the usage record handed to `self._update_costs`. -/
def achat_completion_stream (config : LLMConfig) (pricing_plan : String)
    (count_message_tokens : List Message → String → Except String Nat)
    (count_output_tokens : String → String → Except String Nat)
    (messages : List Message) (chunks : List Chunk) : String × Usage :=
  let r := chunks.foldl process_chunk ([], none)
  let full_content := String.join r.1
  let usage :=
    match r.2 with
    | some u => u
    | none =>
      calc_usage config pricing_plan count_message_tokens count_output_tokens
        messages full_content
  (full_content, usage)

/-- The content fragment a single chunk contributes: the first choice's
truthy `delta.content`, provided the chunk's `choices` list is non-empty. -/
def chunk_frag (ch : Chunk) : Option String :=
  match ch.choices with
  | [] => none
  | choice :: _ =>
    match choice.delta.content with
    | some c => if c != "" then some c else none
    | none => none

/-- The usage a single chunk offers to the loop: its truthy `usage`,
provided the chunk's `choices` list is non-empty. -/
def chunk_usage (ch : Chunk) : Option Usage :=
  match ch.choices with
  | [] => none
  | _ :: _ => ch.usage

/-- Specification-side description of the fragments the stream loop collects,
in stream order. -/
def stream_fragments (chunks : List Chunk) : List String :=
  chunks.filterMap chunk_frag

/-- Specification-side description of the usage the stream loop retains: the
last usage offered by any chunk with a non-empty `choices` list. -/
def last_choiced_usage (chunks : List Chunk) : Option Usage :=
  (chunks.filterMap chunk_usage).getLast?

/-- Embeds `GitHubCopilotLLM._get_max_tokens` (lines 136-140).  The static
`TOKEN_MAX` table (`metagpt.utils.token_counter`, outside this fragment) is
a parameter; `TOKEN_MAX.get(self.model, self.config.max_token)` is
lookup-with-default.  The `messages` argument is unused, as in the source. -/
def get_max_tokens (token_max : List (String × Nat)) (model : String)
    (_messages : List Message) (config_max_token : Nat) : Nat :=
  match token_max.lookup model with
  | some v => v
  | none => config_max_token

/-- The values that can appear in the keyword-argument payload built by
`_cons_kwargs`. -/
inductive KwVal where
  | vStr (s : String)
  | vNum (q : Rat)
  | vNat (n : Nat)
  | vBool (b : Bool)
  | vMsgs (ms : List Message)
  | vHeaders (hs : List (String × String))
deriving DecidableEq, Repr

/-- A Python dict as an insertion-ordered association list with unique keys. -/
abbrev KwDict := List (String × KwVal)

/-- Python `d[k] = v`: overwrite the value of an existing key in place,
otherwise append the new key at the end. -/
def dictSet : KwDict → String → KwVal → KwDict
  | [], k, v => [(k, v)]
  | p :: d, k, v => if p.1 = k then (k, v) :: d else p :: dictSet d k v

/-- Python `d.update(e)`: assign every pair of `e` into `d`, in order. -/
def dictUpdate (d : KwDict) (e : KwDict) : KwDict :=
  e.foldl (fun acc kv => dictSet acc kv.1 kv.2) d

/-- The two fixed editor-integration headers from `_cons_kwargs`
(lines 153-156). -/
def copilot_headers : List (String × String) :=
  [("Editor-Version", "vscode/1.85.0"), ("Copilot-Integration-Id", "vscode-chat")]

/-- Embeds `GitHubCopilotLLM._cons_kwargs` (lines 142-172).  `model` is the
resolved `self.model`; `timeout` is the effective timeout
(`self.get_timeout(timeout)` comes from the base class, outside this
fragment).  `if self.config.stop:` is Python truthiness, embedded by
`strTruthy`; the three numeric knobs are included exactly when they differ
from 1.0 / 0.0 / 0.0; `kwargs.update(extra_kwargs)` runs only when
`extra_kwargs` is non-empty, as in the source. -/
def cons_kwargs (token_max : List (String × Nat)) (model : String)
    (config : LLMConfig) (messages : List Message) (timeout : Nat)
    (extra_kwargs : KwDict) : KwDict :=
  let kwargs : KwDict :=
    [("model", .vStr model),
     ("messages", .vMsgs messages),
     ("max_tokens", .vNat (get_max_tokens token_max model messages config.max_token)),
     ("temperature", .vNum config.temperature),
     ("timeout", .vNat timeout)]
  let kwargs := kwargs ++ [("extra_headers", .vHeaders copilot_headers)]
  let kwargs :=
    if config.top_p ≠ 1 then kwargs ++ [("top_p", .vNum config.top_p)] else kwargs
  let kwargs :=
    if config.frequency_penalty ≠ 0 then
      kwargs ++ [("frequency_penalty", .vNum config.frequency_penalty)]
    else kwargs
  let kwargs :=
    if config.presence_penalty ≠ 0 then
      kwargs ++ [("presence_penalty", .vNum config.presence_penalty)]
    else kwargs
  let kwargs :=
    if strTruthy config.stop then
      kwargs ++ [("stop", .vStr (config.stop.getD ""))]
    else kwargs
  if extra_kwargs.isEmpty then kwargs else dictUpdate kwargs extra_kwargs

/-- The keys of a payload dict, in order. -/
def kwKeys (d : KwDict) : List String :=
  d.map Prod.fst

/-- Embeds `GitHubLLM._update_costs` (github_api.py lines 73-88).  The cost
manager (`metagpt.utils.cost_manager`, outside this fragment) is abstract:
an optional state of type `CM` plus an `update_cost` operation that may
itself raise.  Evaluation order follows Python: the attribute access on a
`None` cost manager raises `AttributeError`; then the `usage` subscripts are
evaluated (a missing key raises `KeyError`), then `update_cost` runs.  The
`except` handler calls `logger.error`, but `github_api.py` never imports
`logger`, so the handler itself raises `NameError`: an inner exception is
therefore replaced by `NameError`, not suppressed. -/
def gh_update_costs {CM : Type} (config : LLMConfig) (cost_manager : Option CM)
    (update_cost : CM → Nat → Nat → String → Except String CM)
    (usage : List (String × Nat)) : Except PyErr (Option CM) :=
  if config.calc_usage then
    let attempt : Except PyErr CM :=
      match cost_manager with
      | none => .error .attributeError
      | some cm =>
        match usage.lookup "prompt_tokens" with
        | none => .error .keyError
        | some p =>
          match usage.lookup "completion_tokens" with
          | none => .error .keyError
          | some c =>
            match update_cost cm p c config.model with
            | .ok cm2 => .ok cm2
            | .error _ => .error .runtimeError
    match attempt with
    | .ok cm2 => .ok (some cm2)
    | .error _ => .error .nameError
  else
    .ok cost_manager

/-- Embeds the non-streaming branch of `GitHubLLM.acompletion_text`
(github_api.py lines 53-71).  The Sydney client is a parameter: `ask` maps a
prompt to the `(response, metadata)` pair its one-shot ask operation
reports.  `messages[-1]["content"]` raises `IndexError` on an empty list;
otherwise the content of the final message is the prompt and the first
component of the client's reply is returned unmodified. -/
def gh_acompletion_text {MetaT : Type} (ask : String → String × MetaT)
    (messages : List Message) : Except PyErr String :=
  match messages.getLast? with
  | none => .error .indexError
  | some m => .ok (ask m.content).1

/-- A concrete stand-in for the Sydney client used in witnesses, mirroring
the mock of `test_github_api.py`: it reports the test's expected reply. -/
def sydneyAskDemo : String → String × Unit :=
  fun p => (p ++ " I am a language model.", ())

/-- A concrete message-token counter for witnesses. -/
def demoCountMsg : List Message → String → Except String Nat :=
  fun ms _ => .ok (ms.length * 3)

/-- A concrete output-token counter for witnesses. -/
def demoCountOut : String → String → Except String Nat :=
  fun s _ => .ok s.length

/-- A token counter that always raises, for the exception-path witnesses. -/
def demoFailMsgCount : List Message → String → Except String Nat :=
  fun _ _ => .error "tiktoken failure"

/-- The fragment component of one loop step. -/
theorem process_chunk_fst (acc : List String × Option Usage) (ch : Chunk) :
    (process_chunk acc ch).1 = acc.1 ++ (chunk_frag ch).toList := by
  rcases ch with ⟨choices, usage⟩
  cases choices with
  | nil => simp [process_chunk, chunk_frag]
  | cons choice rest =>
    rcases choice with ⟨⟨content⟩⟩
    cases content with
    | none => cases usage <;> simp [process_chunk, chunk_frag]
    | some c =>
      by_cases hc : c = ""
      · cases usage <;> simp [process_chunk, chunk_frag, hc]
      · cases usage <;> simp [process_chunk, chunk_frag, hc]

/-- The usage component of one loop step. -/
theorem process_chunk_snd (acc : List String × Option Usage) (ch : Chunk) :
    (process_chunk acc ch).2 =
      match chunk_usage ch with
      | some u => some u
      | none => acc.2 := by
  rcases ch with ⟨choices, usage⟩
  cases choices with
  | nil => simp [process_chunk, chunk_usage]
  | cons choice rest =>
    rcases choice with ⟨⟨content⟩⟩
    cases content with
    | none => cases usage <;> simp [process_chunk, chunk_usage]
    | some c =>
      by_cases hc : c = ""
      · cases usage <;> simp [process_chunk, chunk_usage, hc]
      · cases usage <;> simp [process_chunk, chunk_usage, hc]

/-- The chunk loop collects exactly the per-chunk fragments, in order. -/
theorem foldl_process_chunk_fst (chunks : List Chunk)
    (acc : List String × Option Usage) :
    (chunks.foldl process_chunk acc).1 = acc.1 ++ stream_fragments chunks := by
  induction chunks generalizing acc with
  | nil => simp [stream_fragments]
  | cons ch rest ih =>
    rw [List.foldl_cons, ih]
    rw [process_chunk_fst]
    simp [stream_fragments, List.filterMap_cons]
    cases chunk_frag ch <;> simp

/-- The chunk loop retains the last offered usage, or leaves the accumulator
untouched when no chunk offers one. -/
theorem foldl_process_chunk_snd (chunks : List Chunk)
    (acc : List String × Option Usage) :
    (chunks.foldl process_chunk acc).2 =
      match last_choiced_usage chunks with
      | some u => some u
      | none => acc.2 := by
  induction chunks generalizing acc with
  | nil => simp [last_choiced_usage]
  | cons ch rest ih =>
    rw [List.foldl_cons, ih]
    unfold last_choiced_usage
    rw [List.filterMap_cons]
    cases hu : chunk_usage ch with
    | none =>
      rw [process_chunk_snd, hu]
    | some u =>
      cases h : rest.filterMap chunk_usage with
      | nil =>
        simp [process_chunk_snd, hu]
      | cons x xs =>
        rw [List.getLast?_cons_cons]
        cases hw : (x :: xs).getLast? with
        | none =>
          rw [List.getLast?_eq_none_iff] at hw
          exact absurd hw (by simp)
        | some w => rfl

/-- `calc_usage` always returns a record whose total is the sum of its two
parts. -/
theorem calc_usage_total (config : LLMConfig) (pricing_plan : String)
    (cmt : List Message → String → Except String Nat)
    (cot : String → String → Except String Nat)
    (messages : List Message) (response : String) :
    (calc_usage config pricing_plan cmt cot messages response).total_tokens =
      (calc_usage config pricing_plan cmt cot messages response).prompt_tokens +
        (calc_usage config pricing_plan cmt cot messages response).completion_tokens := by
  unfold calc_usage
  split
  · rfl
  · cases hm : cmt messages (normalize_model_name pricing_plan) with
    | error e => simp [hm]
    | ok p =>
      cases ho : cot response (normalize_model_name pricing_plan) with
      | error e => simp [hm, ho]
      | ok c => simp [hm, ho]

/-- Closed form of the streaming call: the text is the join of the per-chunk
fragments, and the usage is the last usage offered by a chunk with non-empty
`choices`, falling back to the locally computed usage. -/
theorem achat_completion_stream_eq (config : LLMConfig) (pricing_plan : String)
    (cmt : List Message → String → Except String Nat)
    (cot : String → String → Except String Nat)
    (messages : List Message) (chunks : List Chunk) :
    achat_completion_stream config pricing_plan cmt cot messages chunks =
      (String.join (stream_fragments chunks),
       match last_choiced_usage chunks with
       | some u => u
       | none =>
         calc_usage config pricing_plan cmt cot messages
           (String.join (stream_fragments chunks))) := by
  unfold achat_completion_stream
  simp only [foldl_process_chunk_fst, foldl_process_chunk_snd]
  cases h : last_choiced_usage chunks <;> simp [h]

/-- C1 (amended): the returned string is the in-order concatenation of the
truthy incremental content fragments of the chunks whose `choices` list is
non-empty, and whenever some chunk with a non-empty `choices` list carries
usage, the last such chunk-supplied usage is the usage recorded with the
cost manager. -/
theorem claim_C1_stream_text_and_usage (config : LLMConfig) (pricing_plan : String)
    (cmt : List Message → String → Except String Nat)
    (cot : String → String → Except String Nat)
    (messages : List Message) (chunks : List Chunk) :
    (achat_completion_stream config pricing_plan cmt cot messages chunks).1 =
      String.join (stream_fragments chunks) ∧
    ∀ u, last_choiced_usage chunks = some u →
      (achat_completion_stream config pricing_plan cmt cot messages chunks).2 = u := by
  rw [achat_completion_stream_eq]
  refine ⟨rfl, ?_⟩
  intro u hu
  rw [hu]

/-- C1 counterexample: a chunk that carries usage `{5, 2, 7}` but has an
empty `choices` list is in the stream, yet the recorded usage is the locally
computed `{0, 2, 2}`, not the chunk-supplied one — the source checks
`chunk.usage` only inside the `if chunk.choices:` branch. -/
theorem claim_C1_counterexample :
    Chunk.mk [] (some ⟨5, 2, 7⟩) ∈
      [Chunk.mk [⟨⟨some "Hi"⟩⟩] none, Chunk.mk [] (some ⟨5, 2, 7⟩)] ∧
    (Chunk.mk [] (some ⟨5, 2, 7⟩)).usage = some ⟨5, 2, 7⟩ ∧
    (achat_completion_stream ({} : LLMConfig) "github_copilot/gpt-4o" demoCountMsg demoCountOut []
        [Chunk.mk [⟨⟨some "Hi"⟩⟩] none, Chunk.mk [] (some ⟨5, 2, 7⟩)]).2 = ⟨0, 2, 2⟩ ∧
    (⟨0, 2, 2⟩ : Usage) ≠ (⟨5, 2, 7⟩ : Usage) := by
  refine ⟨by decide, rfl, rfl, by decide⟩

/-- C1 witness: the spec's example stream — fragments `"Hel"`, `"lo"`, then a
final chunk (with a non-empty `choices` list) carrying usage `{5, 2, 7}` —
returns `"Hello"` and records exactly that usage. -/
theorem claim_C1_witness :
    (achat_completion_stream ({} : LLMConfig) "github_copilot/gpt-4o" demoCountMsg demoCountOut []
        [⟨[⟨⟨some "Hel"⟩⟩], none⟩, ⟨[⟨⟨some "lo"⟩⟩], none⟩, ⟨[⟨⟨none⟩⟩], some ⟨5, 2, 7⟩⟩]).1
      = "Hello" ∧
    (achat_completion_stream ({} : LLMConfig) "github_copilot/gpt-4o" demoCountMsg demoCountOut []
        [⟨[⟨⟨some "Hel"⟩⟩], none⟩, ⟨[⟨⟨some "lo"⟩⟩], none⟩, ⟨[⟨⟨none⟩⟩], some ⟨5, 2, 7⟩⟩]).2
      = ⟨5, 2, 7⟩ := by
  have h := claim_C1_stream_text_and_usage ({} : LLMConfig) "github_copilot/gpt-4o"
      demoCountMsg demoCountOut []
      [⟨[⟨⟨some "Hel"⟩⟩], none⟩, ⟨[⟨⟨some "lo"⟩⟩], none⟩, ⟨[⟨⟨none⟩⟩], some ⟨5, 2, 7⟩⟩]
  exact ⟨h.1.trans rfl, h.2 ⟨5, 2, 7⟩ rfl⟩

/-- C7: when no consumed chunk carries a usage record, the recorded usage is
computed locally from the original messages and the accumulated text, and it
satisfies `total_tokens = prompt_tokens + completion_tokens` (the counts are
natural numbers, hence non-negative). -/
theorem claim_C7_local_usage (config : LLMConfig) (pricing_plan : String)
    (cmt : List Message → String → Except String Nat)
    (cot : String → String → Except String Nat)
    (messages : List Message) (chunks : List Chunk)
    (h : ∀ ch ∈ chunks, ch.usage = none) :
    (achat_completion_stream config pricing_plan cmt cot messages chunks).2 =
      calc_usage config pricing_plan cmt cot messages
        (achat_completion_stream config pricing_plan cmt cot messages chunks).1 ∧
    (achat_completion_stream config pricing_plan cmt cot messages chunks).2.total_tokens =
      (achat_completion_stream config pricing_plan cmt cot messages chunks).2.prompt_tokens +
        (achat_completion_stream config pricing_plan cmt cot messages chunks).2.completion_tokens := by
  have hl : last_choiced_usage chunks = none := by
    unfold last_choiced_usage
    have hfm : chunks.filterMap chunk_usage = [] := by
      rw [List.filterMap_eq_nil_iff]
      intro ch hch
      unfold chunk_usage
      cases hc : ch.choices with
      | nil => rfl
      | cons a l => exact h ch hch
    rw [hfm]
    rfl
  rw [achat_completion_stream_eq, hl]
  exact ⟨rfl, calc_usage_total config pricing_plan cmt cot messages
    (String.join (stream_fragments chunks))⟩

/-- C7 witness: one content chunk and no usage-bearing chunk; with the demo
counters the recorded usage is the locally computed `{3, 2, 5}`, and
`5 = 3 + 2`. -/
theorem claim_C7_witness :
    (achat_completion_stream ({} : LLMConfig) "github_copilot/gpt-4o" demoCountMsg demoCountOut
        [⟨"user", "hello"⟩] [⟨[⟨⟨some "Hi"⟩⟩], none⟩]).2 = ⟨3, 2, 5⟩ := by
  have h := claim_C7_local_usage ({} : LLMConfig) "github_copilot/gpt-4o" demoCountMsg
      demoCountOut [⟨"user", "hello"⟩] [⟨[⟨⟨some "Hi"⟩⟩], none⟩] (by decide)
  exact h.1.trans rfl

/-- C8: an exception raised by either token counter during usage calculation
is caught and suppressed, yielding the all-zero usage record, and the
streaming call's text result is the accumulated concatenation regardless of
the counters. -/
theorem claim_C8_usage_exception (config : LLMConfig) (pricing_plan : String)
    (cmt : List Message → String → Except String Nat)
    (cot : String → String → Except String Nat)
    (messages : List Message) (response : String)
    (h : (∃ e, cmt messages (normalize_model_name pricing_plan) = .error e) ∨
         (∃ e, cot response (normalize_model_name pricing_plan) = .error e)) :
    calc_usage config pricing_plan cmt cot messages response = ⟨0, 0, 0⟩ ∧
    ∀ chunks, (achat_completion_stream config pricing_plan cmt cot messages chunks).1 =
      String.join (stream_fragments chunks) := by
  constructor
  · unfold calc_usage
    split
    · rfl
    · rcases h with ⟨e, he⟩ | ⟨e, he⟩
      · simp [he]
      · cases hm : cmt messages (normalize_model_name pricing_plan) with
        | error e2 => simp [hm]
        | ok p => simp [hm, he]
  · intro chunks
    rw [achat_completion_stream_eq]

/-- C8 witness: with a message-token counter that raises, the usage record is
all-zero while the streamed text `"Hello"` is still returned. -/
theorem claim_C8_witness :
    calc_usage ({} : LLMConfig) "github_copilot/gpt-4o" demoFailMsgCount demoCountOut
        [⟨"user", "hi"⟩] "Hello" = ⟨0, 0, 0⟩ ∧
    (achat_completion_stream ({} : LLMConfig) "github_copilot/gpt-4o" demoFailMsgCount demoCountOut
        [⟨"user", "hi"⟩] [⟨[⟨⟨some "Hel"⟩⟩], none⟩, ⟨[⟨⟨some "lo"⟩⟩], none⟩]).1 = "Hello" := by
  have h := claim_C8_usage_exception ({} : LLMConfig) "github_copilot/gpt-4o" demoFailMsgCount
      demoCountOut [⟨"user", "hi"⟩] "Hello" (Or.inl ⟨"tiktoken failure", rfl⟩)
  exact ⟨h.1, (h.2 _).trans rfl⟩

/-- C2 (amended): construction may modify exactly the `model` field of the
Configuration — on success the returned configuration is the input with
`model` rewritten to the resolved model id, every other field untouched; and
when the configured model already starts with `"github_copilot/"`, the
configuration is entirely unchanged. -/
theorem claim_C2_config_mutation_bounded (config : LLMConfig) (r : InitResult)
    (h : init_client config = .ok r) :
    r.config = { config with model := r.model } ∧
    (pyStartsWith config.model "github_copilot/" = true → r.config = config) := by
  unfold init_client at h
  by_cases h0 : config.model = ""
  · rw [if_pos h0] at h
    cases h
    refine ⟨rfl, ?_⟩
    intro hc
    rw [h0] at hc
    exact absurd hc (by decide)
  · rw [if_neg h0] at h
    by_cases h1 : pyStartsWith config.model "github_copilot/" = true
    · rw [if_neg (by simp [h1])] at h
      by_cases h2 : pyReplace config.model "github_copilot/" "" ∈ supported_models
      · rw [if_pos h2] at h
        cases h
        exact ⟨rfl, fun _ => rfl⟩
      · rw [if_neg h2] at h
        exact absurd h (by simp)
    · rw [if_pos (by simpa using h1)] at h
      by_cases h2 : config.model ∈ supported_models
      · rw [if_pos h2] at h
        cases h
        exact ⟨rfl, fun hc => absurd hc h1⟩
      · rw [if_neg h2] at h
        exact absurd h (by simp)

/-- C2 counterexample: constructing the adapter with configured model
`"gpt-4o"` rewrites the Configuration's `model` field to
`"github_copilot/gpt-4o"` — the configuration is not read-only. -/
theorem claim_C2_counterexample :
    (init_client { model := "gpt-4o" }).map (fun r => r.config.model) =
      .ok "github_copilot/gpt-4o" ∧
    "github_copilot/gpt-4o" ≠ "gpt-4o" := by
  exact ⟨rfl, by decide⟩

/-- C2 witness: for the already-prefixed model `"github_copilot/gpt-4o"`,
construction leaves the configuration entirely unchanged. -/
theorem claim_C2_witness :
    (⟨{ model := "github_copilot/gpt-4o" }, "github_copilot/gpt-4o",
        "github_copilot/gpt-4o"⟩ : InitResult).config =
      { model := "github_copilot/gpt-4o" } := by
  exact (claim_C2_config_mutation_bounded { model := "github_copilot/gpt-4o" }
    ⟨{ model := "github_copilot/gpt-4o" }, "github_copilot/gpt-4o",
      "github_copilot/gpt-4o"⟩ rfl).2 (by decide)

/-- C3: model resolution at construction — empty model resolves to
`"github_copilot/gpt-4o"`; `"gpt-4o"` resolves to
`"github_copilot/gpt-4o"`; `"github_copilot/gpt-4o"` is unchanged; and
`"not-a-model"` fails with a `ValueError` (no network call exists in
`_init_client`). -/
theorem claim_C3_model_resolution :
    (init_client { model := "" }).map InitResult.model = .ok "github_copilot/gpt-4o" ∧
    (init_client { model := "gpt-4o" }).map InitResult.model = .ok "github_copilot/gpt-4o" ∧
    (init_client { model := "github_copilot/gpt-4o" }).map InitResult.model =
      .ok "github_copilot/gpt-4o" ∧
    init_client { model := "not-a-model" } = .error .valueError := by
  exact ⟨rfl, rfl, rfl, rfl⟩

/-- C10: for every configuration whose model starts with
`"github_copilot/"`, construction validates the model string with every
occurrence of `"github_copilot/"` removed (`str.replace` removes all
occurrences, not only the leading one) and, when validation passes, keeps
the original string verbatim as the resolved model id and leaves the
configuration unchanged. -/
theorem claim_C10_replace_all_validation (config : LLMConfig)
    (h : pyStartsWith config.model "github_copilot/" = true) :
    (pyReplace config.model "github_copilot/" "" ∈ supported_models →
      (init_client config).map (fun r => (r.config, r.model)) =
        .ok (config, config.model)) ∧
    (pyReplace config.model "github_copilot/" "" ∉ supported_models →
      init_client config = .error .valueError) := by
  have h0 : config.model ≠ "" := by
    intro he
    rw [he] at h
    exact absurd h (by decide)
  constructor
  · intro hmem
    unfold init_client
    rw [if_neg h0, if_neg (by simp [h]), if_pos hmem]
    rfl
  · intro hmem
    unfold init_client
    rw [if_neg h0, if_neg (by simp [h]), if_neg hmem]

/-- C10 witness: the doubly prefixed `"github_copilot/github_copilot/gpt-4o"`
validates (all occurrences strip to `"gpt-4o"`, while stripping only the
leading prefix would leave `"github_copilot/gpt-4o"`, which is not a
supported bare name) and resolves to the doubly prefixed id verbatim. -/
theorem claim_C10_witness :
    pyReplace "github_copilot/github_copilot/gpt-4o" "github_copilot/" "" = "gpt-4o" ∧
    "github_copilot/gpt-4o" ∉ supported_models ∧
    (init_client { model := "github_copilot/github_copilot/gpt-4o" }).map
        (fun r => (r.config, r.model)) =
      .ok ({ model := "github_copilot/github_copilot/gpt-4o" },
        "github_copilot/github_copilot/gpt-4o") := by
  refine ⟨rfl, by decide, ?_⟩
  exact (claim_C10_replace_all_validation
    { model := "github_copilot/github_copilot/gpt-4o" } (by decide)).1 (by decide)

/-- C4 (code bug): `GitHubLLM._update_costs` is meant to catch and log
usage-update failures, but `github_api.py` never imports `logger`, so the
`except` handler itself raises `NameError`.  At the failing input —
`calc_usage` enabled, cost manager `None`, a well-formed usage dict — the
call raises instead of returning. -/
theorem claim_C4_handler_raises_nameerror :
    gh_update_costs { model := "gpt-4.1", calc_usage := true } (none : Option Unit)
        (fun cm _ _ _ => .ok cm) [("prompt_tokens", 5), ("completion_tokens", 2)] =
      .error .nameError := by
  rfl

/-- C9: the search-assistant adapter's non-streaming `acompletion_text`
forwards exactly the content of the final message as the prompt to the
external client's one-shot ask operation and returns exactly the text the
client reports, unmodified. -/
theorem claim_C9_forwards_last_content {MetaT : Type} (ask : String → String × MetaT)
    (messages : List Message) (m : Message) (h : messages.getLast? = some m) :
    gh_acompletion_text ask messages = .ok (ask m.content).1 := by
  unfold gh_acompletion_text
  rw [h]

/-- C9 witness: the unit test's scenario — final user message
`"Hello, world!"`, a client reporting
`"Hello, world! I am a language model."` — returns exactly the reported
string. -/
theorem claim_C9_witness :
    gh_acompletion_text sydneyAskDemo
        [⟨"system", "You are helpful."⟩, ⟨"user", "Hello, world!"⟩] =
      .ok "Hello, world! I am a language model." := by
  exact (claim_C9_forwards_last_content sydneyAskDemo
    [⟨"system", "You are helpful."⟩, ⟨"user", "Hello, world!"⟩]
    ⟨"user", "Hello, world!"⟩ rfl).trans rfl

/-- C6: `_get_max_tokens` returns the value stored for the resolved model id
in the per-model token-limit table when the id is a key of the table, and
otherwise returns the configuration's token limit. -/
theorem claim_C6_max_tokens (token_max : List (String × Nat)) (model : String)
    (messages : List Message) (config_max_token : Nat) :
    (∀ v, token_max.lookup model = some v →
      get_max_tokens token_max model messages config_max_token = v) ∧
    (token_max.lookup model = none →
      get_max_tokens token_max model messages config_max_token = config_max_token) := by
  constructor
  · intro v hv
    unfold get_max_tokens
    rw [hv]
  · intro hnone
    unfold get_max_tokens
    rw [hnone]

/-- C6 witness: a table carrying `"github_copilot/gpt-4o" ↦ 128000` yields
128000 for that id and falls back to the configured 4096 for an id not in
the table. -/
theorem claim_C6_witness :
    get_max_tokens [("github_copilot/gpt-4o", 128000)] "github_copilot/gpt-4o" [] 4096 =
      128000 ∧
    get_max_tokens [("github_copilot/gpt-4o", 128000)] "github_copilot/gpt-5" [] 4096 =
      4096 := by
  exact ⟨(claim_C6_max_tokens [("github_copilot/gpt-4o", 128000)] "github_copilot/gpt-4o"
      [] 4096).1 128000 rfl,
    (claim_C6_max_tokens [("github_copilot/gpt-4o", 128000)] "github_copilot/gpt-5"
      [] 4096).2 rfl⟩

/-- Assigning a key makes it the key's value. -/
theorem lookup_dictSet_self (d : KwDict) (k : String) (v : KwVal) :
    (dictSet d k v).lookup k = some v := by
  induction d with
  | nil => simp [dictSet]
  | cons p d ih =>
    rcases p with ⟨pk, pv⟩
    by_cases h : pk = k
    · simp [dictSet, h]
    · have hb : (k == pk) = false := by
        simp [Ne.symm h]
      simp [dictSet, h, List.lookup, hb, ih]

/-- Assigning one key leaves every other key's lookup unchanged. -/
theorem lookup_dictSet_ne (d : KwDict) (k k2 : String) (v : KwVal) (h : k2 ≠ k) :
    (dictSet d k v).lookup k2 = d.lookup k2 := by
  induction d with
  | nil =>
    have hb : (k2 == k) = false := by
      simp [h]
    simp [dictSet, List.lookup, hb]
  | cons p d ih =>
    rcases p with ⟨pk, pv⟩
    by_cases hp : pk = k
    · have hb : (k2 == k) = false := by
        simp [h]
      simp [dictSet, hp, List.lookup, hb]
    · simp [dictSet, hp, List.lookup, ih]

/-- One step of `dict.update`. -/
theorem dictUpdate_cons (d : KwDict) (p : String × KwVal) (e : KwDict) :
    dictUpdate d (p :: e) = dictUpdate (dictSet d p.1 p.2) e := rfl

/-- `dict.update` does not touch keys absent from the update dict. -/
theorem lookup_dictUpdate_not_mem (e d : KwDict) (k : String) (h : k ∉ kwKeys e) :
    (dictUpdate d e).lookup k = d.lookup k := by
  induction e generalizing d with
  | nil => rfl
  | cons p e ih =>
    rcases p with ⟨pk, pv⟩
    have hk : k ≠ pk ∧ k ∉ kwKeys e := by
      simpa [kwKeys, not_or] using h
    rw [dictUpdate_cons, ih _ hk.2]
    exact lookup_dictSet_ne d pk k pv hk.1

/-- `dict.update` gives every key of the update dict its updated value. -/
theorem lookup_dictUpdate_mem (e d : KwDict) (k : String) (v : KwVal)
    (hnd : (kwKeys e).Nodup) (h : e.lookup k = some v) :
    (dictUpdate d e).lookup k = some v := by
  induction e generalizing d with
  | nil => simp at h
  | cons p e ih =>
    rcases p with ⟨pk, pv⟩
    simp only [kwKeys, List.map_cons] at hnd
    rw [List.nodup_cons] at hnd
    by_cases hk : k = pk
    · subst hk
      simp [List.lookup] at h
      rw [dictUpdate_cons, lookup_dictUpdate_not_mem e _ k (by simpa [kwKeys] using hnd.1)]
      rw [lookup_dictSet_self, h]
    · have hb : (k == pk) = false := by
        simp [hk]
      simp [List.lookup, hb] at h
      rw [dictUpdate_cons]
      exact ih _ (by simpa [kwKeys] using hnd.2) h

/-- The keys of the payload `_cons_kwargs` assembles with no extra keyword
overrides: the six unconditional entries, then each optional knob exactly
when its condition from the source holds. -/
theorem cons_kwargs_nil_keys (token_max : List (String × Nat)) (model : String)
    (config : LLMConfig) (messages : List Message) (timeout : Nat) :
    kwKeys (cons_kwargs token_max model config messages timeout []) =
      ["model", "messages", "max_tokens", "temperature", "timeout", "extra_headers"] ++
      (if config.top_p ≠ 1 then ["top_p"] else []) ++
      (if config.frequency_penalty ≠ 0 then ["frequency_penalty"] else []) ++
      (if config.presence_penalty ≠ 0 then ["presence_penalty"] else []) ++
      (if strTruthy config.stop then ["stop"] else []) := by
  simp only [cons_kwargs, List.isEmpty_nil, if_true]
  split_ifs with h1 h2 h3 h4 <;> simp [kwKeys]

/-- C5 (amended): with no extra keyword overrides, the payload includes
`top_p` / `frequency_penalty` / `presence_penalty` exactly when they differ
from their neutral defaults (1.0, 0.0, 0.0), includes `stop` exactly when it
is truthy (present and non-empty — a present-but-empty stop string is
omitted), and always carries the two fixed editor-integration headers; and
any extra keyword overrides (with distinct keys) are merged last: each of
their keys ends up mapped to the override's value. -/
theorem claim_C5_payload_assembly (token_max : List (String × Nat)) (model : String)
    (config : LLMConfig) (messages : List Message) (timeout : Nat) :
    ("top_p" ∈ kwKeys (cons_kwargs token_max model config messages timeout []) ↔
      config.top_p ≠ 1) ∧
    ("frequency_penalty" ∈ kwKeys (cons_kwargs token_max model config messages timeout []) ↔
      config.frequency_penalty ≠ 0) ∧
    ("presence_penalty" ∈ kwKeys (cons_kwargs token_max model config messages timeout []) ↔
      config.presence_penalty ≠ 0) ∧
    ("stop" ∈ kwKeys (cons_kwargs token_max model config messages timeout []) ↔
      strTruthy config.stop = true) ∧
    (cons_kwargs token_max model config messages timeout []).lookup "extra_headers" =
      some (.vHeaders copilot_headers) ∧
    (∀ (extra : KwDict) (k : String) (v : KwVal), (kwKeys extra).Nodup →
      extra.lookup k = some v →
      (cons_kwargs token_max model config messages timeout extra).lookup k = some v) := by
  refine ⟨?_, ?_, ?_, ?_, ?_, ?_⟩
  · rw [cons_kwargs_nil_keys]
    split_ifs <;> simp_all
  · rw [cons_kwargs_nil_keys]
    split_ifs <;> simp_all
  · rw [cons_kwargs_nil_keys]
    split_ifs <;> simp_all
  · rw [cons_kwargs_nil_keys]
    split_ifs <;> simp_all
  · simp only [cons_kwargs, List.isEmpty_nil, if_true]
    split_ifs <;> rfl
  · intro extra k v hnd hl
    simp only [cons_kwargs]
    cases extra with
    | nil => simp at hl
    | cons p e =>
      rw [if_neg (by simp)]
      exact lookup_dictUpdate_mem (p :: e) _ k v hnd hl

/-- C5 counterexample: a present-but-empty stop string differs from the
neutral default (absent), yet the payload omits the `stop` field — the
source includes it under Python truthiness (`if self.config.stop:`), not
under difference-from-absent. -/
theorem claim_C5_counterexample :
    (some "" : Option String) ≠ none ∧
    "stop" ∉ kwKeys (cons_kwargs [] "github_copilot/gpt-4o" { stop := some "" }
      [] 600 []) := by
  refine ⟨by decide, ?_⟩
  rw [cons_kwargs_nil_keys]
  rw [if_neg (by norm_num), if_neg (by norm_num), if_neg (by norm_num),
    if_neg (by decide)]
  decide

/-- C5 witness: for a configuration with `top_p = 9/10`, default penalties
and stop `"END"`, the payload carries `top_p` and `stop` but no
`frequency_penalty`, always carries the fixed headers, and an extra
`stream := true` override survives the merge. -/
theorem claim_C5_witness :
    "top_p" ∈ kwKeys (cons_kwargs [] "github_copilot/gpt-4o"
        { top_p := 9/10, stop := some "END" } [] 600 []) ∧
    "frequency_penalty" ∉ kwKeys (cons_kwargs [] "github_copilot/gpt-4o"
        { top_p := 9/10, stop := some "END" } [] 600 []) ∧
    "stop" ∈ kwKeys (cons_kwargs [] "github_copilot/gpt-4o"
        { top_p := 9/10, stop := some "END" } [] 600 []) ∧
    (cons_kwargs [] "github_copilot/gpt-4o" { top_p := 9/10, stop := some "END" }
        [] 600 []).lookup "extra_headers" = some (.vHeaders copilot_headers) ∧
    (cons_kwargs [] "github_copilot/gpt-4o" { top_p := 9/10, stop := some "END" }
        [] 600 [("stream", .vBool true)]).lookup "stream" = some (.vBool true) := by
  have h := claim_C5_payload_assembly [] "github_copilot/gpt-4o"
    { top_p := 9/10, stop := some "END" } [] 600
  refine ⟨h.1.mpr (by norm_num), ?_, h.2.2.2.1.mpr (by decide), h.2.2.2.2.1, ?_⟩
  · intro hin
    exact (h.2.1.mp hin) rfl
  · exact h.2.2.2.2.2 [("stream", .vBool true)] "stream" (.vBool true)
      (by decide) rfl

end MetaGPTProv
